import Mathlib

/-!
Verification of the route-map rendering core: geometry engine
(Douglas-Peucker simplification, LOD, viewport culling), style
import/export, the render-pipeline control flow, and the performance
sample buffers of the performance monitor.

Numbers are modelled as exact rationals. The source computes
`pointToLineDistance` as `Math.sqrt` of a sum of squares and only ever
uses the result in order comparisons; since `sqrt` is strictly monotone
on nonnegative reals, comparisons of distances are embedded as
comparisons of squared distances, and `distance > tolerance` is embedded
as `tolerance < 0 ∨ tolerance² < squaredDistance`.
-/

namespace RouteRender

/-- A projected 2D canvas point (`Point` / `PathPoint` in `types/visual`).
The algorithms under verification read only the `x`/`y` coordinates. -/
structure Point where
  x : ℚ
  y : ℚ
deriving DecidableEq, Repr

instance : Inhabited Point := ⟨⟨0, 0⟩⟩

/-- Square of `PerformanceOptimizer.pointToLineDistance`: the source
computes `A,B,C,D`, the clamped projection parameter, and returns
`Math.sqrt (dx*dx + dy*dy)`; this definition returns `dx*dx + dy*dy`
(and `A*A + B*B` in the degenerate `lenSq === 0` branch). -/
def pointToLineDistanceSq (point lineStart lineEnd : Point) : ℚ :=
  let a := point.x - lineStart.x
  let b := point.y - lineStart.y
  let c := lineEnd.x - lineStart.x
  let d := lineEnd.y - lineStart.y
  let dot := a * c + b * d
  let lenSq := c * c + d * d
  if lenSq = 0 then a * a + b * b
  else
    let param := dot / lenSq
    let xx := if param < 0 then lineStart.x
              else if 1 < param then lineEnd.x
              else lineStart.x + param * c
    let yy := if param < 0 then lineStart.y
              else if 1 < param then lineEnd.y
              else lineStart.y + param * d
    let dx := point.x - xx
    let dy := point.y - yy
    dx * dx + dy * dy

/-- The scan loop of `douglasPeucker`: walks the interior points carrying
the running index `i`, the maximal squared distance seen so far and its
index, updating on strict increase (`distance > maxDistance` in the
source, which is `maxSq < distSq` on squares). -/
def scanMax (lineStart lineEnd : Point) : List Point → ℕ → ℚ × ℕ → ℚ × ℕ
  | [], _, acc => acc
  | p :: ps, i, (m, mi) =>
      let d := pointToLineDistanceSq p lineStart lineEnd
      if m < d then scanMax lineStart lineEnd ps (i + 1) (d, i)
      else scanMax lineStart lineEnd ps (i + 1) (m, mi)

/-- Model of `PerformanceOptimizer.douglasPeucker`, fuel-indexed.  The source
recursion is unbounded; `none` marks fuel exhaustion.  A fuel of
`points.length` is always enough whenever the source recursion
terminates, because every recursive call in the source receives a list
that is strictly shorter except in the diverging `maxIndex = 0` case
(reachable only with a negative tolerance).  The recursion condition
`maxDistance > tolerance` is embedded as
`tolerance < 0 ∨ tolerance * tolerance < maxSq`. -/
def douglasPeucker : ℕ → List Point → ℚ → Option (List Point)
  | 0, _, _ => none
  | fuel + 1, points, tolerance =>
      if points.length ≤ 2 then some points
      else
        let p0 := points.headI
        let pe := points.getLastD default
        let interior := (points.drop 1).dropLast
        let r := scanMax p0 pe interior 1 (0, 0)
        if tolerance < 0 ∨ tolerance * tolerance < r.1 then
          match douglasPeucker fuel (points.take (r.2 + 1)) tolerance,
                douglasPeucker fuel (points.drop r.2) tolerance with
          | some leftPart, some rightPart => some (leftPart.dropLast ++ rightPart)
          | _, _ => none
        else
          some [p0, pe]

/-- Model of `PerformanceOptimizer.simplifyPath`. -/
def simplifyPath (points : List Point) (tolerance : ℚ) : Option (List Point) :=
  if points.length ≤ 2 then some points
  else douglasPeucker points.length points tolerance

/-- The tolerance selection of `PerformanceOptimizer.applyLOD`
(`totalPixels = width * height`, `complexity = points.length`). -/
def lodTolerance (complexity : ℕ) (width height : ℚ) : ℚ :=
  let totalPixels := width * height
  if totalPixels < 500000 then (if 200 < complexity then 3 else 3 / 2)
  else if totalPixels < 2000000 then (if 500 < complexity then 5 / 2 else 1)
  else (if 1000 < complexity then 2 else 1 / 2)

/-- Model of `PerformanceOptimizer.applyLOD`. -/
def applyLOD (points : List Point) (width height : ℚ) : Option (List Point) :=
  simplifyPath points (lodTolerance points.length width height)

/-- The tier table exactly as the specification words it: three pixel-area
tiers crossed with point-count thresholds.  Stated separately from
`lodTolerance` (which is read off the source) so that the refinement can
be proved. -/
def specLodTolerance (pointCount : ℕ) (width height : ℚ) : ℚ :=
  let area := width * height
  if area < 500000 then (if pointCount > 200 then 3 else 3 / 2)
  else if area < 2000000 then (if pointCount > 500 then 5 / 2 else 1)
  else (if pointCount > 1000 then 2 else 1 / 2)

/-- The viewport rectangle of `cullOutsideViewport`. -/
structure Viewport where
  x : ℚ
  y : ℚ
  width : ℚ
  height : ℚ
deriving DecidableEq, Repr

/-- Model of `PerformanceOptimizer.cullOutsideViewport`: a pure filter on the
viewport expanded by `margin` on all sides. -/
def cullOutsideViewport (points : List Point) (viewport : Viewport) (margin : ℚ) :
    List Point :=
  let left := viewport.x - margin
  let right := viewport.x + viewport.width + margin
  let top := viewport.y - margin
  let bottom := viewport.y + viewport.height + margin
  points.filter fun point =>
    decide (left ≤ point.x) && decide (point.x ≤ right) &&
    decide (top ≤ point.y) && decide (point.y ≤ bottom)

/-- A parsed JSON value, the result of a successful `JSON.parse`.  Object
field lists are in insertion order; `JSON.parse` output never has
duplicate keys (the last occurrence wins during parsing). -/
inductive JsonValue where
  | null
  | bool (b : Bool)
  | num (q : ℚ)
  | str (s : String)
  | arr (elems : List JsonValue)
  | obj (fields : List (String × JsonValue))

/-- JavaScript truthiness of a parsed JSON value (`if (config.currentTheme)`
style tests in `styleManager.ts`).  Objects and arrays are always truthy,
`""`, `0`, `false` and `null` are falsy. -/
def jsTruthy : JsonValue → Bool
  | .null => false
  | .bool b => b
  | .num q => decide (q ≠ 0)
  | .str s => decide (s ≠ "")
  | .arr _ => true
  | .obj _ => true

/-- First-match association lookup on parsed object fields (`JSON.parse`
output has unique keys, so first-match and last-match agree). -/
def lookupField : List (String × JsonValue) → String → Option JsonValue
  | [], _ => none
  | (k, v) :: rest, key => if k = key then some v else lookupField rest key

/-- JavaScript property access `value[key]`: throws a `TypeError` on
`null` (modelled as `Except.error`), yields `undefined` (modelled as
`none`) on missing properties and on primitives. -/
def jsGetField : JsonValue → String → Except Unit (Option JsonValue)
  | .null, _ => .error ()
  | .obj fields, key => .ok (lookupField fields key)
  | _, _ => .ok none

/-- JavaScript `Object.entries`, as used by
`new Map(Object.entries(config.customStyles))`: entries of an object,
index/character pairs of a string, index/element pairs of an array,
empty for other primitives. -/
def jsEntries : JsonValue → List (String × JsonValue)
  | .obj fields => fields
  | .str s => s.toList.enum.map fun p => (toString p.1, .str p.2.toString)
  | .arr xs => xs.enum.map fun p => (toString p.1, p.2)
  | _ => []

/-- The `StyleManager` state the claims are about: the `currentTheme`
field and the `customStyles` map (modelled as its association list in
insertion order; the `Map` invariant makes the keys unique).
`currentTheme` is declared `string` in the source, but
`importStyleConfig` assigns it whatever truthy parsed value the input
carries, so it is modelled as a `JsonValue`. -/
structure StyleState where
  currentTheme : JsonValue
  customStyles : List (String × JsonValue)

/-- Model of `StyleManager.exportStyleConfig`, which produces
`JSON.stringify({currentTheme, customStyles: Object.fromEntries(map)})`.
`JSON.parse ∘ JSON.stringify` is the identity on these values (plain
objects with unique keys, strings, finite numbers), so the export is
modelled as the parsed value it serializes. -/
def exportStyleConfig (s : StyleState) : JsonValue :=
  .obj [("currentTheme", s.currentTheme), ("customStyles", .obj s.customStyles)]

/-- Model of `StyleManager.importStyleConfig`.  The argument is the result of
`JSON.parse` on the input string: `none` when parsing throws (malformed
input), `some v` otherwise.  Mirrors the `try`/`catch`: a thrown
`TypeError` from a property access returns `false` keeping whatever
assignments already ran; otherwise both conditional assignments run and
the call returns `true`. -/
def importStyleConfig (s : StyleState) (input : Option JsonValue) :
    Bool × StyleState :=
  match input with
  | none => (false, s)
  | some config =>
    match jsGetField config ("currentTheme") with
    | .error _ => (false, s)
    | .ok ct =>
      let s1 := match ct with
        | some v => if jsTruthy v then { s with currentTheme := v } else s
        | none => s
      match jsGetField config ("customStyles") with
      | .error _ => (false, s1)
      | .ok cs =>
        let s2 := match cs with
          | some v => if jsTruthy v then { s1 with customStyles := jsEntries v } else s1
          | none => s1
        (true, s2)

/-- The mutable sample state of `PerformanceOptimizer`: `lastFrameTime`,
`frameCount`, the FPS sample buffer `fpsHistory` and the render-duration
buffer `renderTimes`.  Times are rational timestamps standing for
`performance.now()` values. -/
structure PerfState where
  lastFrameTime : ℚ
  frameCount : ℕ
  fpsHistory : List ℚ
  renderTimes : List ℚ

/-- The state of a freshly constructed `PerformanceOptimizer`
(`lastFrameTime = 0`, `frameCount = 0`, empty buffers). -/
def perfInit : PerfState := ⟨0, 0, [], []⟩

/-- Model of `PerformanceOptimizer.recordFrame`, with the current
`performance.now()` passed explicitly.  Pushes `1000 / deltaTime` when
the delta is positive, then drops the oldest sample (`Array.shift`) when
the buffer exceeds 60 entries. -/
def recordFrame (now : ℚ) (s : PerfState) : PerfState :=
  let deltaTime := now - s.lastFrameTime
  let hist :=
    if 0 < deltaTime then
      let h := s.fpsHistory ++ [1000 / deltaTime]
      if 60 < h.length then h.drop 1 else h
    else s.fpsHistory
  { s with fpsHistory := hist, lastFrameTime := now, frameCount := s.frameCount + 1 }

/-- Model of `PerformanceOptimizer.recordRenderTime`: pushes `now - startTime`,
then drops the oldest sample when the buffer exceeds 100 entries. -/
def recordRenderTime (startTime now : ℚ) (s : PerfState) : PerfState :=
  let ts := s.renderTimes ++ [now - startTime]
  { s with renderTimes := if 100 < ts.length then ts.drop 1 else ts }

/-- Model of `PerformanceOptimizer.startPerformanceMonitoring`: resets the counters
and both buffers and stamps `lastFrameTime`. -/
def startPerformanceMonitoring (now : ℚ) (s : PerfState) : PerfState :=
  { s with lastFrameTime := now, frameCount := 0, fpsHistory := [], renderTimes := [] }

/-- Model of `PerformanceOptimizer.resetStats` (same effect as
`startPerformanceMonitoring`, assignment order aside). -/
def resetStats (now : ℚ) (s : PerfState) : PerfState :=
  { s with frameCount := 0, fpsHistory := [], renderTimes := [], lastFrameTime := now }

/-- One call against the performance monitor, with the host clock values
supplied as data. -/
inductive PerfOp where
  | frame (now : ℚ)
  | render (startTime now : ℚ)
  | startMonitoring (now : ℚ)
  | reset (now : ℚ)

/-- Interpretation of one monitor call. -/
def applyPerfOp : PerfOp → PerfState → PerfState
  | .frame now, s => recordFrame now s
  | .render startTime now, s => recordRenderTime startTime now s
  | .startMonitoring now, s => startPerformanceMonitoring now s
  | .reset now, s => resetStats now s

/-- A sequence of monitor calls, applied in order. -/
def runPerfOps (ops : List PerfOp) (s : PerfState) : PerfState :=
  ops.foldl (fun t op => applyPerfOp op t) s

/-- The bound the spec states for the sample buffers: at most 60 FPS
samples and at most 100 render-time samples. -/
def perfBuffersBounded (s : PerfState) : Prop :=
  s.fpsHistory.length ≤ 60 ∧ s.renderTimes.length ≤ 100

/-- The record `PerformanceMetrics` as returned by `getPerformanceMetrics`. -/
structure PerformanceMetrics where
  renderTime : ℚ
  frameRate : ℚ
  memoryUsage : Option ℚ
  canvasWidth : ℚ
  canvasHeight : ℚ
  elementCount : ℕ

/-- Model of `PerformanceOptimizer.getPerformanceMetrics`: averages of the two
buffers, each guarded by a `length > 0` check (`0` when the buffer is
empty), the canvas dimensions, and the best-effort memory probe `mem`
(`undefined`, i.e. `none`, when the host exposes no `performance.memory`). -/
def getPerformanceMetrics (s : PerfState) (width height : ℚ) (elementCount : ℕ)
    (mem : Option ℚ) : PerformanceMetrics :=
  { renderTime :=
      if 0 < s.renderTimes.length then
        s.renderTimes.foldl (fun a b => a + b) 0 / s.renderTimes.length
      else 0
    frameRate :=
      if 0 < s.fpsHistory.length then
        s.fpsHistory.foldl (fun a b => a + b) 0 / s.fpsHistory.length
      else 0
    memoryUsage := mem
    canvasWidth := width
    canvasHeight := height
    elementCount := elementCount }

/-- A drawing command issued to the canvas context.  The visible canvas
is modelled as the list of commands drawn since the last clear. -/
inductive DrawOp where
  | grid
  | path (points : List Point)
  | marker (center : Point) (fillColor strokeColor : String) (radius : ℚ)
  | label (text : String) (position : Point)
deriving DecidableEq

/-- A resolved stop on the route (`LocationInfo` with its `coordinates`). -/
structure LocationInfo where
  name : String
  lng : ℚ
  lat : ℚ
deriving DecidableEq

/-- The slice of `RouteData` the renderer reads: the ordered stop list
and the polyline. -/
structure RouteData where
  locations : List LocationInfo
  path : List Point
deriving DecidableEq

/-- A location marker as built by `CanvasVisualRenderer.renderRoute`. -/
structure LocationMarker where
  position : Point
  label : String
  fillColor : String
  strokeColor : String
  radius : ℚ
deriving DecidableEq

/-- The marker construction in `CanvasVisualRenderer.renderRoute`: every
location is mapped to position `(lng*100, lat*100)`, label `name`, fill
color the literal `#ff4444`, stroke color the path color, radius 8. -/
def buildLocationMarkers (locations : List LocationInfo) (pathColor : String) :
    List LocationMarker :=
  locations.map fun loc =>
    ⟨⟨loc.lng * 100, loc.lat * 100⟩, loc.name, "#ff4444", pathColor, 8⟩

/-- The drawing commands `renderLocationMarkers` issues for one marker:
the shadowed circle, then — when the label string is truthy
(`if (marker.label)`) — a text label at `(x, y - 20)`, i.e. 20 pixels
above the marker center. -/
def markerOps (m : LocationMarker) : List DrawOp :=
  [DrawOp.marker m.position m.fillColor m.strokeColor m.radius] ++
    (if m.label = "" then [] else [DrawOp.label m.label ⟨m.position.x, m.position.y - 20⟩])

/-- Model of `CanvasVisualRenderer.renderLocationMarkers` over a marker list. -/
def renderLocationMarkersOps (markers : List LocationMarker) : List DrawOp :=
  markers.flatMap markerOps

/-- Model of `CanvasVisualRenderer.renderRoute`: returns early (drawing nothing)
when the path is empty; otherwise draws the smoothed path (skipped for
fewer than 2 points, with coordinates scaled by 100) and then the
location markers and labels. -/
def renderRouteOps (path : List Point) (locations : List LocationInfo)
    (pathColor : String) : List DrawOp :=
  if path.length = 0 then []
  else
    (if path.length < 2 then []
     else [DrawOp.path (path.map fun p => ⟨p.x * 100, p.y * 100⟩)]) ++
    renderLocationMarkersOps (buildLocationMarkers locations pathColor)

/-- The optimisation options `renderRouteMap` consults. -/
structure OptimizationOpts where
  enableLOD : Bool
  maxPoints : ℕ
  simplificationTolerance : ℚ

/-- The geometry-optimisation stage of `renderRouteMap`: `applyLOD` when
`enableLOD`, then `simplifyPath` when `maxPoints` is truthy (nonzero) and
exceeded.  `none` models the stage throwing (the source recursion not
terminating). -/
def optimizeGeometry (path : List Point) (opts : OptimizationOpts)
    (width height : ℚ) : Option (List Point) :=
  match (if opts.enableLOD then applyLOD path width height else some path) with
  | none => none
  | some optimized =>
      if opts.maxPoints ≠ 0 ∧ opts.maxPoints < optimized.length then
        simplifyPath optimized opts.simplificationTolerance
      else some optimized

/-- The sequential stages of one `renderRouteMap` call: the initial
canvas/context check, `clearCanvas`, `renderBaseMap`, the geometry
optimisation, and `renderRoute` (path, markers and labels). -/
inductive Stage where
  | initStage
  | clearStage
  | baseMapStage
  | geometryStage
  | routeStage
deriving DecidableEq

/-- One `CanvasVisualRenderer.renderRouteMap` call over the visible
canvas `prev` (the commands currently on screen).  `failAt` abstracts the
host throwing inside the named stage (the drawing of that stage does not take
effect and later stages do not run); the geometry stage can additionally
fail on its own when the simplification recursion does not terminate.
Returns the call outcome together with the canvas contents visible after
the call.  The source clears the visible canvas in place before drawing
(there is no offscreen buffer). -/
def renderRouteMapModel (prev : List DrawOp) (data : RouteData)
    (opts : OptimizationOpts) (width height : ℚ) (pathColor : String)
    (failAt : Option Stage) : Except Stage Unit × List DrawOp :=
  if failAt = some .initStage then (Except.error .initStage, prev)
  else if failAt = some .clearStage then (Except.error .clearStage, prev)
  else
    let cleared : List DrawOp := []
    if failAt = some .baseMapStage then (Except.error .baseMapStage, cleared)
    else
      let withGrid := cleared ++ [DrawOp.grid]
      if failAt = some .geometryStage then (Except.error .geometryStage, withGrid)
      else
        match optimizeGeometry data.path opts width height with
        | none => (Except.error .geometryStage, withGrid)
        | some optimized =>
            if failAt = some .routeStage then (Except.error .routeStage, withGrid)
            else (Except.ok (), withGrid ++ renderRouteOps optimized data.locations pathColor)

/-! ### List helper lemmas -/

theorem getLastD_irrel {α : Type} (l : List α) (h : l ≠ []) (d₁ d₂ : α) :
    l.getLastD d₁ = l.getLastD d₂ := by
  cases l with
  | nil => exact absurd rfl h
  | cons a t => rfl

theorem head?_append_left {α : Type} (l r : List α) (h : l ≠ []) :
    (l ++ r).head? = l.head? := by
  cases l with
  | nil => exact absurd rfl h
  | cons a t => rfl

theorem getLastD_append_right {α : Type} (l r : List α) (d : α) (h : r ≠ []) :
    (l ++ r).getLastD d = r.getLastD d := by
  induction l generalizing d with
  | nil => rfl
  | cons a t ih =>
      rw [List.cons_append, List.getLastD_cons, ih a]
      exact getLastD_irrel r h a d

theorem head?_take {α : Type} (l : List α) (n : ℕ) (h : 0 < n) :
    (l.take n).head? = l.head? := by
  cases l with
  | nil => simp
  | cons a t =>
      cases n with
      | zero => omega
      | succ n => rfl

theorem getLastD_drop {α : Type} (l : List α) (k : ℕ) (d : α) (h : k < l.length) :
    (l.drop k).getLastD d = l.getLastD d := by
  induction l generalizing k d with
  | nil => simp at h
  | cons a t ih =>
      cases k with
      | zero => rfl
      | succ k =>
          have ht : k < t.length := by simpa using h
          rw [List.drop_succ_cons, List.getLastD_cons, ih k d ht]
          exact getLastD_irrel t (List.length_pos.mp (by omega)) d a

theorem head?_dropLast {α : Type} (l : List α) (h : 2 ≤ l.length) :
    l.dropLast.head? = l.head? := by
  cases l with
  | nil => simp at h
  | cons a t =>
      cases t with
      | nil => simp at h
      | cons b t2 => rfl

theorem head?_eq_headI (l : List Point) (h : l ≠ []) : l.head? = some l.headI := by
  cases l with
  | nil => exact absurd rfl h
  | cons a t => rfl

/-! ### The scan loop of `douglasPeucker` -/

theorem scanMax_cons (p0 pe p : Point) (ps : List Point) (i : ℕ) (m : ℚ) (j : ℕ) :
    scanMax p0 pe (p :: ps) i (m, j) =
      if m < pointToLineDistanceSq p p0 pe then
        scanMax p0 pe ps (i + 1) (pointToLineDistanceSq p p0 pe, i)
      else scanMax p0 pe ps (i + 1) (m, j) := rfl

theorem scanMax_spec (p0 pe : Point) :
    ∀ (ps : List Point) (i : ℕ) (m : ℚ) (j : ℕ),
      scanMax p0 pe ps i (m, j) = (m, j) ∨
      (m < (scanMax p0 pe ps i (m, j)).1 ∧ i ≤ (scanMax p0 pe ps i (m, j)).2 ∧
        (scanMax p0 pe ps i (m, j)).2 < i + ps.length) := by
  intro ps
  induction ps with
  | nil => intro i m j; exact Or.inl rfl
  | cons p ps ih =>
      intro i m j
      rw [scanMax_cons]
      by_cases hmd : m < pointToLineDistanceSq p p0 pe
      · rw [if_pos hmd]
        rcases ih (i + 1) (pointToLineDistanceSq p p0 pe) i with heq | hgt
        · rw [heq]
          exact Or.inr ⟨hmd, le_refl i, by simp only [List.length_cons]; omega⟩
        · exact Or.inr ⟨lt_trans hmd hgt.1, by omega,
            by simp only [List.length_cons]; omega⟩
      · rw [if_neg hmd]
        rcases ih (i + 1) m j with heq | hgt
        · rw [heq]
          exact Or.inl rfl
        · exact Or.inr ⟨hgt.1, by omega, by simp only [List.length_cons]; omega⟩

theorem scanMax_le (p0 pe : Point) (bound : ℚ) :
    ∀ (ps : List Point) (i : ℕ) (m : ℚ) (j : ℕ), m ≤ bound →
      (∀ q ∈ ps, pointToLineDistanceSq q p0 pe ≤ bound) →
      (scanMax p0 pe ps i (m, j)).1 ≤ bound := by
  intro ps
  induction ps with
  | nil => intro i m j hm _; exact hm
  | cons p ps ih =>
      intro i m j hm hall
      rw [scanMax_cons]
      by_cases hmd : m < pointToLineDistanceSq p p0 pe
      · rw [if_pos hmd]
        exact ih (i + 1) _ i (hall p (by simp)) fun q hq => hall q (by simp [hq])
      · rw [if_neg hmd]
        exact ih (i + 1) m j hm fun q hq => hall q (by simp [hq])

/-! ### Douglas-Peucker structural guarantees -/

theorem douglasPeucker_succ (fuel : ℕ) (points : List Point) (tolerance : ℚ)
    (h : ¬points.length ≤ 2) :
    douglasPeucker (fuel + 1) points tolerance =
      (if tolerance < 0 ∨ tolerance * tolerance <
          (scanMax points.headI (points.getLastD default) ((points.drop 1).dropLast) 1 (0, 0)).1 then
        match douglasPeucker fuel (points.take
            ((scanMax points.headI (points.getLastD default)
              ((points.drop 1).dropLast) 1 (0, 0)).2 + 1)) tolerance,
          douglasPeucker fuel (points.drop
            (scanMax points.headI (points.getLastD default)
              ((points.drop 1).dropLast) 1 (0, 0)).2) tolerance with
        | some leftPart, some rightPart => some (leftPart.dropLast ++ rightPart)
        | _, _ => none
      else some [points.headI, points.getLastD default]) := by
  simp only [douglasPeucker, if_neg h]

theorem douglasPeucker_spec :
    ∀ (fuel : ℕ) (points : List Point) (tolerance : ℚ), 0 ≤ tolerance →
      points.length ≤ fuel → 2 ≤ points.length →
      ∃ l, douglasPeucker fuel points tolerance = some l ∧
        l.head? = points.head? ∧ l.getLastD default = points.getLastD default ∧
        l.length ≤ points.length ∧ 2 ≤ l.length := by
  intro fuel
  induction fuel with
  | zero => intro points tol _ hf h2; omega
  | succ fuel ih =>
      intro points tol htol hf h2
      by_cases hle : points.length ≤ 2
      · refine ⟨points, ?_, rfl, rfl, le_refl _, h2⟩
        simp only [douglasPeucker, if_pos hle]
      · rw [douglasPeucker_succ fuel points tol hle]
        set r := scanMax points.headI (points.getLastD default)
          ((points.drop 1).dropLast) 1 (0, 0) with hrdef
        have hint : ((points.drop 1).dropLast).length = points.length - 2 := by
          simp only [List.length_dropLast, List.length_drop]
          omega
        by_cases hcond : tol < 0 ∨ tol * tol < r.1
        · have htt : tol * tol < r.1 := by
            rcases hcond with hneg | hgt
            · exact absurd hneg (not_lt.mpr htol)
            · exact hgt
          have hbounds : 1 ≤ r.2 ∧ r.2 < 1 + ((points.drop 1).dropLast).length := by
            rcases scanMax_spec points.headI (points.getLastD default)
                ((points.drop 1).dropLast) 1 0 0 with heq | hgt
            · exfalso
              rw [← hrdef] at heq
              rw [heq] at htt
              simp only [Prod.fst] at htt
              nlinarith [mul_self_nonneg tol]
            · exact ⟨hgt.2.1, hgt.2.2⟩
          have hidx : 1 ≤ r.2 ∧ r.2 ≤ points.length - 2 := by omega
          obtain ⟨L, hLeq, hLhead, hLlast, hLlen, hL2⟩ :=
            ih (points.take (r.2 + 1)) tol htol
              (by rw [List.length_take]; omega) (by rw [List.length_take]; omega)
          obtain ⟨R, hReq, hRhead, hRlast, hRlen, hR2⟩ :=
            ih (points.drop r.2) tol htol
              (by rw [List.length_drop]; omega) (by rw [List.length_drop]; omega)
          rw [List.length_take] at hLlen
          rw [List.length_drop] at hRlen
          refine ⟨L.dropLast ++ R, ?_, ?_, ?_, ?_, ?_⟩
          · rw [if_pos hcond, hLeq, hReq]
          · have hLd : L.dropLast ≠ [] := by
              have hlen := List.length_dropLast L
              intro hnil
              rw [hnil] at hlen
              simp at hlen
              omega
            rw [head?_append_left _ _ hLd, head?_dropLast L hL2, hLhead,
              head?_take points (r.2 + 1) (by omega)]
          · have hRne : R ≠ [] := List.length_pos.mp (by omega)
            rw [getLastD_append_right _ _ _ hRne, hRlast,
              getLastD_drop points r.2 default (by omega)]
          · rw [List.length_append, List.length_dropLast]
            omega
          · rw [List.length_append, List.length_dropLast]
            omega
        · refine ⟨[points.headI, points.getLastD default], ?_, ?_, ?_, ?_, ?_⟩
          · rw [if_neg hcond]
          · rw [head?_eq_headI points (List.length_pos.mp (by omega))]
            rfl
          · rw [List.getLastD_cons, List.getLastD_cons]
            rfl
          · simp only [List.length_cons, List.length_nil]
            omega
          · simp

theorem simplifyPath_some_length (points : List Point) (tolerance : ℚ)
    (h : 0 ≤ tolerance) :
    ∃ l, simplifyPath points tolerance = some l ∧ l.length ≤ points.length := by
  by_cases hle : points.length ≤ 2
  · exact ⟨points, by simp only [simplifyPath, if_pos hle], le_refl _⟩
  · obtain ⟨l, hl, _, _, hlen, _⟩ :=
      douglasPeucker_spec points.length points tolerance h (le_refl _) (by omega)
    exact ⟨l, by simp only [simplifyPath, if_neg hle]; exact hl, hlen⟩

/-- With a negative tolerance and all interior points exactly on the
first-last chord, the source recursion calls itself on the unchanged
input (`maxIndex` stays 0): it never terminates, whatever the fuel. -/
theorem douglasPeucker_neg_tol_diverges :
    ∀ fuel : ℕ, douglasPeucker fuel [⟨0, 0⟩, ⟨1, 0⟩, ⟨2, 0⟩] (-1) = none := by
  intro fuel
  induction fuel with
  | zero => rfl
  | succ fuel ih =>
      have hstep : douglasPeucker (fuel + 1) [⟨0, 0⟩, ⟨1, 0⟩, ⟨2, 0⟩] (-1) =
          match douglasPeucker fuel [⟨0, 0⟩] (-1),
            douglasPeucker fuel [⟨0, 0⟩, ⟨1, 0⟩, ⟨2, 0⟩] (-1) with
          | some leftPart, some rightPart => some (leftPart.dropLast ++ rightPart)
          | _, _ => none := by
        rw [douglasPeucker_succ fuel _ _ (by norm_num)]
        norm_num [scanMax, pointToLineDistanceSq]
      rw [hstep, ih]
      cases douglasPeucker fuel [⟨0, 0⟩] (-1) <;> rfl

/-- C1: `simplifyPath` returns its input unchanged whenever
`|p| ≤ 2` (for any tolerance), and — amended: for every tolerance ≥ 0 —
whenever `|p| ≥ 2` the output exists, begins with `p[0]`, ends with
`p[-1]`, is no longer than the input, and has at least 2 points.  The
restriction to nonnegative tolerances is forced: for a negative
tolerance the source recursion can fail to terminate
(`simplifyPath_neg_tolerance_cex`). -/
theorem simplifyPath_endpoints (points : List Point) (tolerance : ℚ) :
    (points.length ≤ 2 → simplifyPath points tolerance = some points) ∧
    (0 ≤ tolerance → 2 ≤ points.length →
      ∃ l, simplifyPath points tolerance = some l ∧
        l.head? = points.head? ∧ l.getLastD default = points.getLastD default ∧
        l.length ≤ points.length ∧ 2 ≤ l.length) := by
  constructor
  · intro h
    simp only [simplifyPath, if_pos h]
  · intro htol h2
    by_cases hle : points.length ≤ 2
    · exact ⟨points, by simp only [simplifyPath, if_pos hle], rfl, rfl, le_refl _, h2⟩
    · obtain ⟨l, hl, hh, hlast, hlen, h2l⟩ :=
        douglasPeucker_spec points.length points tolerance htol (le_refl _) h2
      exact ⟨l, by simp only [simplifyPath, if_neg hle]; exact hl, hh, hlast, hlen, h2l⟩

/-- Witness for C1 at a concrete 3-point path with tolerance 1. -/
theorem simplifyPath_endpoints_witness :
    ∃ l, simplifyPath [⟨0, 0⟩, ⟨5, 9⟩, ⟨10, 0⟩] 1 = some l ∧
      l.head? = ([⟨0, 0⟩, ⟨5, 9⟩, ⟨10, 0⟩] : List Point).head? ∧
      l.getLastD default = ([⟨0, 0⟩, ⟨5, 9⟩, ⟨10, 0⟩] : List Point).getLastD default ∧
      l.length ≤ ([⟨0, 0⟩, ⟨5, 9⟩, ⟨10, 0⟩] : List Point).length ∧ 2 ≤ l.length :=
  (simplifyPath_endpoints [⟨0, 0⟩, ⟨5, 9⟩, ⟨10, 0⟩] 1).2 (by norm_num) (by simp)

/-- Counterexample to C1 as stated over *every* tolerance: on the
collinear path `[(0,0),(1,0),(2,0)]` with tolerance `-1` the source
recursion never terminates (`douglasPeucker_neg_tol_diverges`), so no
point list is returned at all. -/
theorem simplifyPath_neg_tolerance_cex :
    simplifyPath [⟨0, 0⟩, ⟨1, 0⟩, ⟨2, 0⟩] (-1) = none := by
  have h := douglasPeucker_neg_tol_diverges 3
  simp only [simplifyPath, List.length_cons, List.length_nil]
  norm_num
  exact h

/-- C3: whenever every interior point lies within `tolerance` of the
segment from `p[0]` to `p[-1]` (stated on squared distances:
`dist ≤ tol` iff `0 ≤ tol ∧ distSq ≤ tol²`), `simplifyPath` collapses
the path to exactly `[p[0], p[-1]]`. -/
theorem simplifyPath_collapse (points : List Point) (tolerance : ℚ)
    (h2 : 2 ≤ points.length)
    (hnear : ∀ q ∈ (points.drop 1).dropLast,
      0 ≤ tolerance ∧ pointToLineDistanceSq q points.headI (points.getLastD default) ≤
        tolerance * tolerance) :
    simplifyPath points tolerance = some [points.headI, points.getLastD default] := by
  by_cases hle : points.length ≤ 2
  · have hlen : points.length = 2 := by omega
    match points, hlen with
    | [a, b], _ =>
        simp only [simplifyPath]
        rfl
  · have h3 : 3 ≤ points.length := by omega
    obtain ⟨fuel, hfuel⟩ : ∃ fuel, points.length = fuel + 1 :=
      ⟨points.length - 1, by omega⟩
    have hq0 : ∃ q, q ∈ (points.drop 1).dropLast := by
      have : ((points.drop 1).dropLast).length = points.length - 2 := by
        simp only [List.length_dropLast, List.length_drop]
        omega
      rcases List.exists_mem_of_length_pos (l := (points.drop 1).dropLast) (by omega)
        with ⟨q, hq⟩
      exact ⟨q, hq⟩
    obtain ⟨q0, hq0⟩ := hq0
    have htol : 0 ≤ tolerance := (hnear q0 hq0).1
    have hmax : (scanMax points.headI (points.getLastD default)
        ((points.drop 1).dropLast) 1 (0, 0)).1 ≤ tolerance * tolerance :=
      scanMax_le points.headI (points.getLastD default) (tolerance * tolerance)
        ((points.drop 1).dropLast) 1 0 0 (mul_self_nonneg tolerance)
        (fun q hq => (hnear q hq).2)
    have hcond : ¬(tolerance < 0 ∨ tolerance * tolerance <
        (scanMax points.headI (points.getLastD default)
          ((points.drop 1).dropLast) 1 (0, 0)).1) := by
      push_neg
      exact ⟨htol, hmax⟩
    simp only [simplifyPath, if_neg hle]
    rw [hfuel, douglasPeucker_succ fuel points tolerance hle, if_neg hcond]

/-- Witness for C3: the collinear path
`[(100,100),(200,150),(300,200),(400,250)]` with tolerance 5 simplifies
to exactly its two endpoints. -/
theorem simplifyPath_collapse_witness :
    simplifyPath [⟨100, 100⟩, ⟨200, 150⟩, ⟨300, 200⟩, ⟨400, 250⟩] 5 =
      some [⟨100, 100⟩, ⟨400, 250⟩] := by
  have h := simplifyPath_collapse [⟨100, 100⟩, ⟨200, 150⟩, ⟨300, 200⟩, ⟨400, 250⟩] 5
    (by norm_num)
    (by
      intro q hq
      refine ⟨by norm_num, ?_⟩
      norm_num at hq
      rcases hq with rfl | rfl <;> norm_num [pointToLineDistanceSq])
  simpa using h

/-- C4: `applyLOD` is exactly `simplifyPath` at the tolerance picked by
the three pixel-area tiers stated by the spec crossed with point-count thresholds,
and its output never has more points than its input. -/
theorem applyLOD_spec (points : List Point) (width height : ℚ) :
    applyLOD points width height =
      simplifyPath points (specLodTolerance points.length width height) ∧
    ∃ l, applyLOD points width height = some l ∧ l.length ≤ points.length := by
  have heq : lodTolerance points.length width height =
      specLodTolerance points.length width height := rfl
  constructor
  · rw [applyLOD, heq]
  · have hnn : 0 ≤ lodTolerance points.length width height := by
      simp only [lodTolerance]
      split_ifs <;> norm_num
    obtain ⟨l, hl, hlen⟩ :=
      simplifyPath_some_length points (lodTolerance points.length width height) hnn
    exact ⟨l, by rw [applyLOD]; exact hl, hlen⟩

/-- C5: `cullOutsideViewport` returns an order-preserving subsequence of
its input, every returned point lies within the viewport expanded by
`margin` on all sides, and every input point within those expanded
bounds is kept. -/
theorem cullOutsideViewport_spec (points : List Point) (viewport : Viewport)
    (margin : ℚ) :
    List.Sublist (cullOutsideViewport points viewport margin) points ∧
    (∀ p ∈ cullOutsideViewport points viewport margin,
      viewport.x - margin ≤ p.x ∧ p.x ≤ viewport.x + viewport.width + margin ∧
      viewport.y - margin ≤ p.y ∧ p.y ≤ viewport.y + viewport.height + margin) ∧
    (∀ p ∈ points,
      viewport.x - margin ≤ p.x → p.x ≤ viewport.x + viewport.width + margin →
      viewport.y - margin ≤ p.y → p.y ≤ viewport.y + viewport.height + margin →
      p ∈ cullOutsideViewport points viewport margin) := by
  refine ⟨List.filter_sublist _, ?_, ?_⟩
  · intro p hp
    simp only [cullOutsideViewport, List.mem_filter, Bool.and_eq_true,
      decide_eq_true_eq] at hp
    exact ⟨hp.2.1.1.1, hp.2.1.1.2, hp.2.1.2, hp.2.2⟩
  · intro p hp h1 h2 h3 h4
    simp only [cullOutsideViewport, List.mem_filter, Bool.and_eq_true,
      decide_eq_true_eq]
    exact ⟨hp, ⟨⟨h1, h2⟩, h3⟩, h4⟩

/-- Witness for C5: a point inside the expanded viewport is kept. -/
theorem cullOutsideViewport_spec_witness :
    (⟨3, 4⟩ : Point) ∈ cullOutsideViewport [⟨3, 4⟩, ⟨999, 999⟩] ⟨0, 0, 10, 10⟩ 5 :=
  (cullOutsideViewport_spec [⟨3, 4⟩, ⟨999, 999⟩] ⟨0, 0, 10, 10⟩ 5).2.2 ⟨3, 4⟩
    (by simp) (by norm_num) (by norm_num) (by norm_num) (by norm_num)

/-! ### Style import/export -/

/-- C6 (amended): on malformed input (`JSON.parse` throws, modelled as
`none`) `importStyleConfig` returns `false` and leaves the state
unchanged; but the claim that it returns `true` only for a valid serialized
`{currentTheme, customStyles}` configuration" fails — the call returns
`true` exactly when the input is well-formed JSON whose parsed value is
not `null`, configuration or not (`importStyleConfig_nonconfig_cex`). -/
theorem importStyleConfig_behavior (s : StyleState) (input : Option JsonValue) :
    (input = none → importStyleConfig s input = (false, s)) ∧
    ((importStyleConfig s input).1 = true ↔
      ∃ v, input = some v ∧ v ≠ JsonValue.null) := by
  constructor
  · rintro rfl
    rfl
  · cases input with
    | none => simp [importStyleConfig]
    | some v => cases v <;> simp [importStyleConfig, jsGetField]

/-- Witness for C6: malformed input is rejected with the state intact,
and a parseable non-null input is accepted. -/
theorem importStyleConfig_behavior_witness :
    importStyleConfig ⟨JsonValue.str ("blue"), []⟩ none = (false, ⟨JsonValue.str ("blue"), []⟩) ∧
    (importStyleConfig ⟨JsonValue.str ("blue"), []⟩ (some (JsonValue.num 5))).1 = true :=
  ⟨(importStyleConfig_behavior ⟨JsonValue.str ("blue"), []⟩ none).1 rfl,
   (importStyleConfig_behavior ⟨JsonValue.str ("blue"), []⟩ (some (JsonValue.num 5))).2.mpr
     ⟨JsonValue.num 5, rfl, fun h => JsonValue.noConfusion h⟩⟩

/-- Counterexample to C6 as stated: the input string `"5"` parses to the
JSON number `5`, which is not a serialized `{currentTheme, customStyles}`
configuration (it is not even an object), yet `importStyleConfig`
returns `true` on it. -/
theorem importStyleConfig_nonconfig_cex :
    importStyleConfig ⟨JsonValue.str ("blue"), []⟩ (some (JsonValue.num 5)) =
      (true, ⟨JsonValue.str ("blue"), []⟩) := rfl

/-- C7: importing the exported configuration succeeds and restores the
identical `currentTheme` and `customStyles` mapping.  The hypothesis
records the `Map` invariant (unique keys), under which
`JSON.parse ∘ JSON.stringify` is the identity on the exported object. -/
theorem styleConfig_roundtrip (s : StyleState)
    (hkeys : (s.customStyles.map Prod.fst).Nodup) :
    importStyleConfig s (some (exportStyleConfig s)) = (true, s) := by
  cases s with
  | mk ct cs =>
      simp only [importStyleConfig, exportStyleConfig, jsGetField, lookupField,
        if_pos rfl, jsEntries]
      rw [if_neg (by decide : ¬("customStyles" = "currentTheme"))]
      by_cases h : jsTruthy ct = true
      · simp [h]
      · simp [h]

/-- Witness for C7 at a concrete state with one custom style. -/
theorem styleConfig_roundtrip_witness :
    importStyleConfig
      ⟨JsonValue.str ("green"), [("blue", JsonValue.obj [("lineWidth", JsonValue.num 4)])]⟩
      (some (exportStyleConfig
        ⟨JsonValue.str ("green"), [("blue", JsonValue.obj [("lineWidth", JsonValue.num 4)])]⟩)) =
      (true, ⟨JsonValue.str ("green"), [("blue", JsonValue.obj [("lineWidth", JsonValue.num 4)])]⟩) :=
  styleConfig_roundtrip _ (by simp)

/-! ### Performance monitor sample buffers -/

theorem applyPerfOp_bounded (op : PerfOp) (s : PerfState)
    (h : perfBuffersBounded s) : perfBuffersBounded (applyPerfOp op s) := by
  obtain ⟨h60, h100⟩ := h
  cases op with
  | frame now =>
      refine ⟨?_, h100⟩
      simp only [applyPerfOp, recordFrame]
      split_ifs with h1 h2
      · simp only [List.length_drop, List.length_append, List.length_cons,
          List.length_nil] at h2 ⊢
        omega
      · simp only [List.length_append, List.length_cons, List.length_nil] at h2 ⊢
        omega
      · exact h60
  | render startTime now =>
      refine ⟨h60, ?_⟩
      simp only [applyPerfOp, recordRenderTime]
      split_ifs with h1
      · simp only [List.length_drop, List.length_append, List.length_cons,
          List.length_nil] at h1 ⊢
        omega
      · simp only [List.length_append, List.length_cons, List.length_nil] at h1 ⊢
        omega
  | startMonitoring now => exact ⟨by simp [applyPerfOp, startPerformanceMonitoring],
      by simp [applyPerfOp, startPerformanceMonitoring]⟩
  | reset now => exact ⟨by simp [applyPerfOp, resetStats],
      by simp [applyPerfOp, resetStats]⟩

theorem runPerfOps_bounded (ops : List PerfOp) (s : PerfState)
    (h : perfBuffersBounded s) : perfBuffersBounded (runPerfOps ops s) := by
  induction ops generalizing s with
  | nil => exact h
  | cons op ops ih => exact ih (applyPerfOp op s) (applyPerfOp_bounded op s h)

/-- C9: after every sequence of monitor calls from a fresh optimizer the
FPS buffer holds at most 60 samples and the render-time buffer at most
100; and when a buffer is full, recording a new sample drops exactly the
oldest one (the new sample is appended at the tail). -/
theorem perf_ring_buffers :
    (∀ ops : List PerfOp, perfBuffersBounded (runPerfOps ops perfInit)) ∧
    (∀ (s : PerfState) (now : ℚ), s.fpsHistory.length = 60 →
      0 < now - s.lastFrameTime →
      (recordFrame now s).fpsHistory =
        s.fpsHistory.drop 1 ++ [1000 / (now - s.lastFrameTime)]) ∧
    (∀ (s : PerfState) (startTime now : ℚ), s.renderTimes.length = 100 →
      (recordRenderTime startTime now s).renderTimes =
        s.renderTimes.drop 1 ++ [now - startTime]) := by
  refine ⟨?_, ?_, ?_⟩
  · intro ops
    exact runPerfOps_bounded ops perfInit ⟨by simp [perfInit], by simp [perfInit]⟩
  · intro s now h60 hdt
    simp only [recordFrame, if_pos hdt]
    rw [if_pos (by simp only [List.length_append, List.length_cons,
      List.length_nil]; omega)]
    rw [List.drop_append_of_le_length (by omega)]
  · intro s startTime now h100
    simp only [recordRenderTime]
    rw [if_pos (by simp only [List.length_append, List.length_cons,
      List.length_nil]; omega)]
    rw [List.drop_append_of_le_length (by omega)]

/-- Witness for C9: recording a frame on a full 60-sample buffer evicts
the oldest sample and appends the new one. -/
theorem perf_ring_buffers_witness :
    (recordFrame 10 ⟨0, 0, List.replicate 60 30, []⟩).fpsHistory =
      (List.replicate 60 (30 : ℚ)).drop 1 ++ [1000 / ((10 : ℚ) - 0)] :=
  perf_ring_buffers.2.1 ⟨0, 0, List.replicate 60 30, []⟩ 10 (by simp) (by norm_num)

/-- C10: with both sample buffers empty (fresh instance, or right after
`startPerformanceMonitoring`), `getPerformanceMetrics` returns the
defined values `frameRate = 0` and `renderTime = 0`: both averages are
guarded by the buffer-length checks, so no division over an empty
buffer is performed. -/
theorem metrics_empty_buffers (s : PerfState) (width height : ℚ)
    (elementCount : ℕ) (mem : Option ℚ) (now : ℚ) (s0 : PerfState)
    (hf : s.fpsHistory = []) (hr : s.renderTimes = []) :
    ((getPerformanceMetrics s width height elementCount mem).frameRate = 0 ∧
     (getPerformanceMetrics s width height elementCount mem).renderTime = 0) ∧
    ((getPerformanceMetrics (startPerformanceMonitoring now s0)
        width height elementCount mem).frameRate = 0 ∧
     (getPerformanceMetrics (startPerformanceMonitoring now s0)
        width height elementCount mem).renderTime = 0) := by
  refine ⟨⟨?_, ?_⟩, ?_, ?_⟩ <;>
    simp [getPerformanceMetrics, startPerformanceMonitoring, hf, hr]

/-- Witness for C10 at the fresh optimizer state. -/
theorem metrics_empty_buffers_witness :
    (getPerformanceMetrics perfInit 800 600 0 none).frameRate = 0 ∧
    (getPerformanceMetrics perfInit 800 600 0 none).renderTime = 0 :=
  (metrics_empty_buffers perfInit 800 600 0 none 0 perfInit rfl rfl).1

/-! ### Render pipeline failure behaviour and markers -/

/-- C2 (amended): a failure in any stage aborts the rest of that render
call and surfaces as an error identifying a stage — but the previously
rendered frame does *not* remain visible: `renderRouteMap` clears the
visible canvas in place before drawing (no offscreen buffer), so after
any failure past the clear the visible contents are whatever this call
drew so far, independent of the previous frame
(`renderRouteMap_destructive_clear_cex`).  When nothing fails the call
completes with the freshly drawn frame. -/
theorem renderRouteMap_failure_semantics (prev : List DrawOp) (data : RouteData)
    (opts : OptimizationOpts) (width height : ℚ) (pathColor : String) (s : Stage) :
    (∃ e, (renderRouteMapModel prev data opts width height pathColor (some s)).1 =
      Except.error e) ∧
    (s ≠ Stage.initStage → s ≠ Stage.clearStage →
      (renderRouteMapModel prev data opts width height pathColor (some s)).2 =
        (renderRouteMapModel [] data opts width height pathColor (some s)).2) ∧
    (∀ optimized, optimizeGeometry data.path opts width height = some optimized →
      renderRouteMapModel prev data opts width height pathColor none =
        (Except.ok (), [DrawOp.grid] ++
          renderRouteOps optimized data.locations pathColor)) := by
  refine ⟨?_, ?_, ?_⟩
  · cases s <;>
      first
        | exact ⟨_, rfl⟩
        | · cases hg : optimizeGeometry data.path opts width height with
            | none => exact ⟨Stage.geometryStage,
                by simp [renderRouteMapModel, hg]⟩
            | some optimized => exact ⟨Stage.routeStage,
                by simp [renderRouteMapModel, hg]⟩
  · intro hinit hclear
    cases s with
    | initStage => exact absurd rfl hinit
    | clearStage => exact absurd rfl hclear
    | baseMapStage => rfl
    | geometryStage => rfl
    | routeStage =>
        cases hg : optimizeGeometry data.path opts width height with
        | none => simp [renderRouteMapModel, hg]
        | some optimized => simp [renderRouteMapModel, hg]
  · intro optimized hg
    simp [renderRouteMapModel, hg]

/-- Witness for C2: with a route-stage failure, the canvas contents after
the failed call do not depend on the previously rendered frame. -/
theorem renderRouteMap_failure_semantics_witness :
    (renderRouteMapModel [DrawOp.grid, DrawOp.path [⟨1, 2⟩]] ⟨[], [⟨0, 0⟩, ⟨3, 4⟩]⟩
        ⟨false, 1000, 2⟩ 800 600 ("#2563eb") (some Stage.routeStage)).2 =
      (renderRouteMapModel [] ⟨[], [⟨0, 0⟩, ⟨3, 4⟩]⟩
        ⟨false, 1000, 2⟩ 800 600 ("#2563eb") (some Stage.routeStage)).2 :=
  (renderRouteMap_failure_semantics [DrawOp.grid, DrawOp.path [⟨1, 2⟩]]
      ⟨[], [⟨0, 0⟩, ⟨3, 4⟩]⟩ ⟨false, 1000, 2⟩ 800 600 ("#2563eb") Stage.routeStage).2.1
    (fun h => Stage.noConfusion h) (fun h => Stage.noConfusion h)

/-- Counterexample to C2 as stated: a failure in the route stage aborts
the call, but the visible canvas then holds only the background
grid — the previous frame (here a drawn path) has been destroyed by the
initial in-place clear, and is not left visible. -/
theorem renderRouteMap_destructive_clear_cex :
    (renderRouteMapModel [DrawOp.path [⟨1, 2⟩]] ⟨[], [⟨0, 0⟩, ⟨3, 4⟩]⟩
        ⟨false, 1000, 2⟩ 800 600 ("#2563eb") (some Stage.routeStage)).1 =
      Except.error Stage.routeStage ∧
    (renderRouteMapModel [DrawOp.path [⟨1, 2⟩]] ⟨[], [⟨0, 0⟩, ⟨3, 4⟩]⟩
        ⟨false, 1000, 2⟩ 800 600 ("#2563eb") (some Stage.routeStage)).2 =
      [DrawOp.grid] ∧
    ([DrawOp.grid] : List DrawOp) ≠ [DrawOp.path [⟨1, 2⟩]] := by
  refine ⟨?_, ?_, by simp⟩ <;>
    simp [renderRouteMapModel, optimizeGeometry, simplifyPath]

/-- C8 (amended): the marker of every location is built with the one fixed
fill color `#ff4444` — start, intermediate and end markers are *not*
colored distinctly — while the label part of the claim holds: a marker
with a nonempty label gets its text label placed directly above the
marker (20 pixels up). -/
theorem markers_uniform_color_label_above (locations : List LocationInfo)
    (pathColor : String) :
    (∀ m ∈ buildLocationMarkers locations pathColor, m.fillColor = "#ff4444") ∧
    (∀ m : LocationMarker, ¬m.label = "" →
      markerOps m = [DrawOp.marker m.position m.fillColor m.strokeColor m.radius,
        DrawOp.label m.label ⟨m.position.x, m.position.y - 20⟩]) := by
  constructor
  · intro m hm
    simp only [buildLocationMarkers, List.mem_map] at hm
    obtain ⟨loc, _, rfl⟩ := hm
    rfl
  · intro m hm
    simp [markerOps, hm]

/-- Witness for C8: the drawing commands for a labelled marker. -/
theorem markers_uniform_witness :
    markerOps ⟨⟨100, 200⟩, "Beijing", "#ff4444", "#2563eb", 8⟩ =
      [DrawOp.marker ⟨100, 200⟩ "#ff4444" "#2563eb" 8,
       DrawOp.label ("Beijing") ⟨100, (200 : ℚ) - 20⟩] :=
  (markers_uniform_color_label_above [] "#2563eb").2
    ⟨⟨100, 200⟩, "Beijing", "#ff4444", "#2563eb", 8⟩ (by simp)

/-- Counterexample to C8 as stated: on a three-stop route the start,
intermediate and end markers all receive the same fill color
`#ff4444` — there is no role-distinct coloring. -/
theorem markers_same_color_cex :
    (buildLocationMarkers [⟨"Beijing", 116, 39⟩, ⟨"Xian", 108, 34⟩,
        ⟨"Shanghai", 121, 31⟩] "#2563eb").map LocationMarker.fillColor =
      ["#ff4444", "#ff4444", "#ff4444"] := rfl

end RouteRender
